import Mathlib

/-
Verification of the Binance Futures Loss Guardian core (index.ts "3.0" and the
4.0 rewrite in debug_orders.ts).  Quantities, PnL values and the loss threshold
are modelled as exact rationals (the source computes with JS numbers; the
decimal-rounding semantics of toFixed is modelled as round-half-up on ℚ).
Epoch timestamps are modelled as integers.  Network calls are modelled by
passing their outcome explicitly: a fetch outcome is an `Except Unit` value and
a thrown SL-check is `Option.none`.
-/

namespace Guardian

/-- A position as produced by BinanceAPI.getPositions: symbol, signed amount,
unrealized PnL and the derived side string ("LONG" when amt > 0). -/
structure Position where
  symbol : String
  amt : ℚ
  pnl : ℚ
  side : String
deriving DecidableEq, Repr

/-- JS Map.get: the value stored under `k`, looking at the first entry. -/
def mapGet {α : Type} (m : List (String × α)) (k : String) : Option α :=
  (m.find? (fun e => e.1 == k)).map (fun e => e.2)

/-- JS Map.set: replace the entry for `k` in place, or append it. -/
def mapSet {α : Type} : List (String × α) → String → α → List (String × α)
  | [], k, v => [(k, v)]
  | e :: rest, k, v => if e.1 = k then (k, v) :: rest else e :: mapSet rest k v

/-- JS Map.delete: remove the entry stored under `k`. -/
def mapDelete {α : Type} (m : List (String × α)) (k : String) : List (String × α) :=
  m.filter (fun e => !(e.1 == k))

/-- An algo (conditional) order as in the AlgoOrder interface.  `quantity` is a
numeric string in the source; `none` models an absent or empty field, which the
source coalesces to "0". -/
structure AlgoOrder where
  algoId : Nat
  symbol : String
  side : String
  quantity : Option ℚ
  orderType : String
  algoStatus : String
  closePosition : Option Bool
deriving DecidableEq, Repr

/-- The closePosition field of a conventional order is observed both as a
string and as a boolean in the source (`=== 'true' || === true`). -/
inductive CloseFlag
  | absent
  | ofBool (b : Bool)
  | ofStr (s : String)
deriving DecidableEq, Repr

/-- A conventional open order (typed `any` in the source); only the fields the
checker reads are modelled.  `origQty`/`quantity` are numeric strings, `none`
modelling an absent or empty field. -/
structure ConvOrder where
  status : String
  side : String
  type : String
  closePosition : CloseFlag
  origQty : Option ℚ
  quantity : Option ℚ
deriving DecidableEq, Repr

/-- `side === 'LONG' ? 'SELL' : 'BUY'` in SLChecker.checkSL. -/
def expectedSide (side : String) : String :=
  if side == "LONG" then "SELL" else "BUY"

/-- The algo-order branch of SLChecker.checkSL: the order protects iff its
status is NEW, its side is the protective side, its type is STOP or
STOP_MARKET, and closePosition === true or parseFloat(quantity) > 0. -/
def algoProtects (exp : String) (o : AlgoOrder) : Bool :=
  o.algoStatus == "NEW" && o.side == exp &&
    (o.orderType == "STOP" || o.orderType == "STOP_MARKET") &&
    (o.closePosition == some true || decide (0 < o.quantity.getD 0))

/-- `order.closePosition === 'true' || order.closePosition === true`. -/
def closeFlagTrue : CloseFlag → Bool
  | .ofStr s => s == "true"
  | .ofBool b => b
  | .absent => false

/-- `parseFloat(order.origQty || order.quantity || '0')`. -/
def convEffQty (o : ConvOrder) : ℚ :=
  match o.origQty with
  | some v => v
  | none => o.quantity.getD 0

/-- The conventional-order branch of SLChecker.checkSL. -/
def convProtects (exp : String) (o : ConvOrder) : Bool :=
  o.status == "NEW" && o.side == exp &&
    (o.type == "STOP" || o.type == "STOP_MARKET") &&
    (closeFlagTrue o.closePosition || decide (0 < convEffQty o))

/-- Result of one checkSL call: `result = some true` means the call returned
true (protected), `some false` means it returned false (unprotected), and
`none` means it threw ("Network error during SL check", rendered as the
Unknown glyph).  `consultedConventional` records whether the conventional
order list was fetched at all. -/
structure CheckResult where
  result : Option Bool
  consultedConventional : Bool
deriving DecidableEq, Repr

/-- The second half of SLChecker.checkSL: scan the conventional orders, then
throw if any fetch had failed and nothing matched. -/
def checkConventional (exp : String) (hasNetErr : Bool)
    (convRes : Except Unit (List ConvOrder)) : CheckResult :=
  match convRes with
  | .error _ => ⟨none, true⟩
  | .ok orders =>
    if orders.any (convProtects exp) then ⟨some true, true⟩
    else if hasNetErr then ⟨none, true⟩
    else ⟨some false, true⟩

/-- SLChecker.checkSL (identical logic in index.ts and debug_orders.ts): scan
the algo orders first, returning true at the first match without fetching the
conventional list; otherwise scan the conventional orders; a network failure
in either fetch sets hasNetworkError, and the call throws at the end when that
flag is set and no match was found. -/
def checkSL (side : String) (algoRes : Except Unit (List AlgoOrder))
    (convRes : Except Unit (List ConvOrder)) : CheckResult :=
  let exp := expectedSide side
  match algoRes with
  | .ok orders =>
    if orders.any (algoProtects exp) then ⟨some true, false⟩
    else checkConventional exp false convRes
  | .error _ => checkConventional exp true convRes

/-- A cached determination in SLChecker: hasSL plus the Date.now() of the
check. -/
structure SLState where
  hasSL : Bool
  lastCheck : ℤ
deriving DecidableEq, Repr

/-- The eviction pass at the top of SLChecker.check: delete every cached
symbol that no longer appears in the position snapshot. -/
def evictClosed (cache : List (String × SLState)) (positions : List Position) :
    List (String × SLState) :=
  cache.filter (fun e => positions.any (fun p => p.symbol == e.1))

/-- One iteration of the per-position loop in SLChecker.check: on a successful
checkSL the cache entry is set; when checkSL throws (res = none) the catch
block leaves the cache untouched. -/
def checkStep (now : ℤ) (res : Position → Option Bool)
    (c : List (String × SLState)) (p : Position) : List (String × SLState) :=
  match res p with
  | some b => mapSet c p.symbol ⟨b, now⟩
  | none => c

/-- SLChecker.check, modelled on its cache: evict vanished symbols, then run
checkSL for every position in the snapshot.  `res p` is the outcome of
`checkSL p.symbol p.side` this cycle (`none` = thrown).  The Telegram side
effects of the loop are not part of this model. -/
def slCheckCycle (now : ℤ) (cache : List (String × SLState))
    (positions : List Position) (res : Position → Option Bool) :
    List (String × SLState) :=
  positions.foldl (checkStep now res) (evictClosed cache positions)

/-- Telegram.shouldNotify: with `last` the recorded last-sent time (0 when no
entry exists), return true and record `nowMs` iff nowMs - last ≥ interval;
otherwise return false leaving the map unchanged. -/
def shouldNotify (intervalMs nowMs : ℤ) (lastNotify : List (String × ℤ))
    (symbol : String) : Bool × List (String × ℤ) :=
  let last := (mapGet lastNotify symbol).getD 0
  if intervalMs ≤ nowMs - last then (true, mapSet lastNotify symbol nowMs)
  else (false, lastNotify)

/-- Telegram.clearSymbol: drop the throttle entry. -/
def clearSymbol (lastNotify : List (String × ℤ)) (symbol : String) :
    List (String × ℤ) :=
  mapDelete lastNotify symbol

/-- `parseFloat(qty.toFixed(p))` on exact rationals: round to p fractional
digits, a tie going to the larger candidate as toFixed specifies, i.e.
floor(q·10^p + 1/2) / 10^p. -/
def roundToPrecision (p : ℕ) (q : ℚ) : ℚ :=
  (((q * 10 ^ p + 1 / 2).floor : ℤ) : ℚ) / 10 ^ p

/-- JS String.split('.') over the characters of the string: the list of
segments between the dots. -/
def splitOnDot : List Char → List (List Char)
  | [] => [[]]
  | c :: rest =>
    if c = '.' then [] :: splitOnDot rest
    else
      match splitOnDot rest with
      | [] => [[c]]
      | seg :: segs => (c :: seg) :: segs

/-- `(lot.stepSize.split('.')[1] || '').length`: the number of fractional
digits of the step size — the length of the segment after the first dot, 0
when the step size has no dot. -/
def precisionOfStepSize (stepSize : String) : ℕ :=
  ((splitOnDot stepSize.toList).getD 1 []).length

/-- `this.symbolInfo.get(symbol) || 6`: an absent entry gives 6, and a cached
value of 0 is falsy in JS so it is also coalesced to 6. -/
def effectivePrecision (symbolInfo : List (String × ℕ)) (symbol : String) : ℕ :=
  match mapGet symbolInfo symbol with
  | none => 6
  | some p => if p = 0 then 6 else p

/-- BinanceAPI.roundQty after the symbolInfo cache is populated: round the
quantity at the symbol's effective precision. -/
def roundQty (symbolInfo : List (String × ℕ)) (symbol : String) (q : ℚ) : ℚ :=
  roundToPrecision (effectivePrecision symbolInfo symbol) q

/-- The distinct operator-visible alert messages sent from the two
closePosition implementations, carrying the fields that appear in the message
text.  The 3.0 success message (index.ts) contains the order id, PnL, side and
quantity but not the order status. -/
inductive AlertKind
  | closedOk40 (orderId : Nat)
  | notFullyClosed40 (status : String) (orderId : Nat)
  | unexpectedStatus40 (status : String) (orderId : Nat)
  | closeFailed40
  | closed30 (orderId : Nat)
  | closeFailed30
deriving DecidableEq, Repr

/-- Observable events emitted while the close protocol runs: exchange calls,
inter-attempt sleeps, log lines by severity, and Telegram notifications. -/
inductive Ev
  | cancelAllOrders
  | cancelAlgo (algoId : Nat)
  | closeAttempt (side : String) (qty : ℚ)
  | sleepMs (ms : ℕ)
  | logOkEv
  | logWarnEv
  | logErrEv
  | notifyEv (k : AlertKind)
deriving DecidableEq, Repr

/-- The `{orderId, status}` response of BinanceAPI.marketClose. -/
structure OrderResult where
  orderId : Nat
  status : String
deriving DecidableEq, Repr

/-- The retry helper of debug_orders.ts run over the outcomes of the
successive attempts: return the first success; after a failed attempt that is
not the last, log a warning and sleep for the fixed delay; when every attempt
has failed, rethrow the last error.  The trace records one `attempt` event per
call made. -/
def retryRun (delayMs : ℕ) (attempt : Ev) :
    List (Except Unit OrderResult) → Except Unit OrderResult × List Ev
  | [] => (.error (), [])
  | .ok r :: _ => (.ok r, [attempt])
  | [.error e] => (.error e, [attempt])
  | .error _ :: o2 :: rest =>
    let p := retryRun delayMs attempt (o2 :: rest)
    (p.1, attempt :: .logWarnEv :: .sleepMs delayMs :: p.2)

/-- The status classification after the close order is submitted
(debug_orders.ts): FILLED, PARTIALLY_FILLED/NEW, and everything else each get
their own log line and Telegram message. -/
def closeStatusEvents (r : OrderResult) : List Ev :=
  if r.status == "FILLED" then [.logOkEv, .notifyEv (.closedOk40 r.orderId)]
  else if r.status == "PARTIALLY_FILLED" || r.status == "NEW" then
    [.logWarnEv, .notifyEv (.notFullyClosed40 r.status r.orderId)]
  else [.logErrEv, .notifyEv (.unexpectedStatus40 r.status r.orderId)]

/-- The best-effort cancellation phase shared by both closePosition
implementations: cancel all conventional orders, then cancel every algo order
in status NEW.  Failures are swallowed in the source and do not affect any
later step; a failed algo fetch skips the algo cancellations. -/
def cancelPhaseEvents (algoRes : Except Unit (List AlgoOrder)) : List Ev :=
  Ev.cancelAllOrders ::
    (match algoRes with
     | .ok orders =>
       (orders.filter (fun o => o.algoStatus == "NEW")).map
         (fun o => Ev.cancelAlgo o.algoId)
     | .error _ => [])

/-- `pos.amt > 0 ? 'SELL' : 'BUY'`. -/
def closeSide (pos : Position) : String := if 0 < pos.amt then "SELL" else "BUY"

/-- PositionMonitor.closePosition of debug_orders.ts (4.0): in dry-run mode
only log; otherwise run the cancellation phase, submit the market close
through `retry` (attempts = 3, delay = 500 ms), classify the resulting status,
and on retry exhaustion catch the error, log it and alert.  No error escapes,
so the monitor loop continues and the still-open position is re-evaluated on
the next tick.  `closeOutcomes` lists the outcomes the successive submission
attempts would have. -/
def closePosition40 (dryRun : Bool) (symbolInfo : List (String × ℕ))
    (pos : Position) (algoRes : Except Unit (List AlgoOrder))
    (closeOutcomes : List (Except Unit OrderResult)) : List Ev :=
  let qty := roundQty symbolInfo pos.symbol |pos.amt|
  if dryRun then [.logWarnEv]
  else
    let p := retryRun 500 (.closeAttempt (closeSide pos) qty) closeOutcomes
    cancelPhaseEvents algoRes ++ p.2 ++
      (match p.1 with
       | .ok r => closeStatusEvents r
       | .error _ => [.logErrEv, .notifyEv .closeFailed40])

/-- PositionMonitor.closePosition of index.ts (3.0): cancellation phase, then
a single marketClose submission with no retry; on success one success log and
one Telegram message that does not mention the order status; on failure an
error log and an error alert, again without rethrowing.  (The conditional
throttle clear after the Telegram send is not modelled.) -/
def closePosition30 (dryRun : Bool) (symbolInfo : List (String × ℕ))
    (pos : Position) (algoRes : Except Unit (List AlgoOrder))
    (closeOutcome : Except Unit OrderResult) : List Ev :=
  let qty := roundQty symbolInfo pos.symbol |pos.amt|
  if dryRun then [.logWarnEv]
  else
    cancelPhaseEvents algoRes ++ [.closeAttempt (closeSide pos) qty] ++
      (match closeOutcome with
       | .ok r => [.logOkEv, .notifyEv (.closed30 r.orderId)]
       | .error _ => [.logErrEv, .notifyEv .closeFailed30])

/-- The Telegram notifications contained in an event trace. -/
def notifs (tr : List Ev) : List AlertKind :=
  tr.filterMap (fun e => match e with | .notifyEv k => some k | _ => none)

/-- The close-trigger predicate of PositionMonitor.tick:
`pos.pnl < 0 && Math.abs(pos.pnl) >= cfg.maxLossUsd`. -/
def qualifiesLoss (maxLoss : ℚ) (p : Position) : Bool :=
  decide (p.pnl < 0) && decide (maxLoss ≤ |p.pnl|)

/-- What one monitor tick does, as observed from outside. -/
structure TickOut where
  snapshot : List Position
  printInvoked : Bool
  closed : List Position
  events : List Ev
deriving Repr

/-- PositionMonitor.tick of debug_orders.ts (4.0): replace the snapshot with
the freshly fetched positions, invoke printPositions, and then — unless the
pause flag is set, which returns before the loop — run the close protocol for
every position satisfying the loss predicate.  `closeTrace p` is the event
trace closePosition would produce for `p`. -/
def tick40 (paused : Bool) (maxLoss : ℚ) (fetched : List Position)
    (closeTrace : Position → List Ev) : TickOut :=
  { snapshot := fetched
    printInvoked := true
    closed := if paused then [] else fetched.filter (qualifiesLoss maxLoss)
    events := if paused then []
      else (fetched.filter (qualifiesLoss maxLoss)).flatMap closeTrace }

/-- PositionMonitor.tick of index.ts (3.0): identical except that no pause
flag exists, i.e. the paused = false instance of the 4.0 tick. -/
def tick30 (maxLoss : ℚ) (fetched : List Position)
    (closeTrace : Position → List Ev) : TickOut :=
  tick40 false maxLoss fetched closeTrace

/-- One line of PositionMonitor.getStatusInfo (debug_orders.ts): symbol, pnl
and the tri-state SL determination (`none` = Unknown). -/
structure StatusEntry where
  symbol : String
  pnl : ℚ
  hasSL : Option Bool
deriving DecidableEq, Repr

/-- PositionMonitor.getStatusInfo: every position of the snapshot with its
pnl and the cached SL tri-state, plus the consecutive error count. -/
def getStatusInfo (snapshot : List Position)
    (slStatus : String → Option SLState) (errors : ℕ) :
    List StatusEntry × ℕ :=
  (snapshot.map (fun p => ⟨p.symbol, p.pnl, (slStatus p.symbol).map SLState.hasSL⟩),
   errors)

theorem mapGet_cons {α : Type} (e : String × α) (m : List (String × α))
    (k : String) :
    mapGet (e :: m) k = if e.1 = k then some e.2 else mapGet m k := by
  by_cases h : e.1 = k <;> simp [mapGet, List.find?_cons, h]

theorem mapGet_set_self {α : Type} (m : List (String × α)) (k : String) (v : α) :
    mapGet (mapSet m k v) k = some v := by
  induction m with
  | nil => simp [mapSet, mapGet_cons]
  | cons e rest ih =>
    by_cases h : e.1 = k
    · simp [mapSet, h, mapGet_cons]
    · simp [mapSet, h, mapGet_cons, ih]

theorem mapGet_set_ne {α : Type} (m : List (String × α)) (k s : String) (v : α)
    (h : k ≠ s) : mapGet (mapSet m k v) s = mapGet m s := by
  induction m with
  | nil => simp [mapSet, mapGet_cons, h]
  | cons e rest ih =>
    by_cases he : e.1 = k
    · simp [mapSet, he, mapGet_cons, h]
    · simp [mapSet, he, mapGet_cons, ih]

theorem mapGet_delete_self {α : Type} (m : List (String × α)) (k : String) :
    mapGet (mapDelete m k) k = none := by
  induction m with
  | nil => rfl
  | cons e rest ih =>
    by_cases h : e.1 = k
    · simp [mapDelete, h] at ih ⊢
      exact ih
    · simp only [mapDelete, List.filter_cons] at ih ⊢
      simp [h, mapGet_cons, ih]

theorem mapGet_filter_true {α : Type} (q : String × α → Bool)
    (m : List (String × α)) (s : String) (h : ∀ v, q (s, v) = true) :
    mapGet (m.filter q) s = mapGet m s := by
  induction m with
  | nil => rfl
  | cons e rest ih =>
    by_cases he : e.1 = s
    · have : q e = true := by
        have : e = (s, e.2) := by rw [← he]
        rw [this]; exact h e.2
      simp [List.filter_cons, this, mapGet_cons, he, ih]
    · by_cases hq : q e = true
      · simp [List.filter_cons, hq, mapGet_cons, he, ih]
      · simp only [Bool.not_eq_true] at hq
        simp [List.filter_cons, hq, mapGet_cons, he, ih]

theorem mapGet_filter_false {α : Type} (q : String × α → Bool)
    (m : List (String × α)) (s : String) (h : ∀ v, q (s, v) = false) :
    mapGet (m.filter q) s = none := by
  induction m with
  | nil => rfl
  | cons e rest ih =>
    by_cases he : e.1 = s
    · have : q e = false := by
        have : e = (s, e.2) := by rw [← he]
        rw [this]; exact h e.2
      simp [List.filter_cons, this, ih]
    · by_cases hq : q e = true
      · simp [List.filter_cons, hq, mapGet_cons, he, ih]
      · simp only [Bool.not_eq_true] at hq
        simp [List.filter_cons, hq, ih]

theorem foldl_checkStep_preserve (now : ℤ) (res : Position → Option Bool) :
    ∀ (ps : List Position) (c : List (String × SLState)) (s : String),
      (∀ p ∈ ps, p.symbol ≠ s) →
      mapGet (ps.foldl (checkStep now res) c) s = mapGet c s := by
  intro ps
  induction ps with
  | nil => intro c s _; rfl
  | cons p0 rest ih =>
    intro c s h
    have h0 : p0.symbol ≠ s := h p0 (List.mem_cons_self p0 rest)
    have hrest : ∀ p ∈ rest, p.symbol ≠ s := fun p hp => h p (List.mem_cons_of_mem _ hp)
    rw [List.foldl_cons, ih _ s hrest]
    unfold checkStep
    cases res p0 with
    | some b => exact mapGet_set_ne c p0.symbol s _ h0
    | none => rfl

theorem foldl_checkStep_get (now : ℤ) (res : Position → Option Bool) :
    ∀ (ps : List Position) (c : List (String × SLState)) (p : Position),
      p ∈ ps → (ps.map Position.symbol).Nodup →
      mapGet (ps.foldl (checkStep now res) c) p.symbol =
        (match res p with
         | some b => some ⟨b, now⟩
         | none => mapGet c p.symbol) := by
  intro ps
  induction ps with
  | nil => intro c p h; cases h
  | cons p0 rest ih =>
    intro c p hmem hnodup
    rw [List.map_cons, List.nodup_cons] at hnodup
    obtain ⟨hnotin, hnd⟩ := hnodup
    rcases List.mem_cons.mp hmem with rfl | htail
    · have hne : ∀ q ∈ rest, q.symbol ≠ p.symbol := by
        intro q hq hcontra
        exact hnotin (hcontra ▸ List.mem_map_of_mem Position.symbol hq)
      rw [List.foldl_cons, foldl_checkStep_preserve now res rest _ _ hne]
      unfold checkStep
      cases res p with
      | some b => exact mapGet_set_self c p.symbol _
      | none => rfl
    · rw [List.foldl_cons, ih _ p htail hnd]
      cases res p with
      | some b => rfl
      | none =>
        unfold checkStep
        cases res p0 with
        | some b =>
          have : p0.symbol ≠ p.symbol := by
            intro hcontra
            exact hnotin (hcontra ▸ List.mem_map_of_mem Position.symbol htail)
          exact mapGet_set_ne c p0.symbol p.symbol _ this
        | none => rfl

theorem ratFloor_eq_floor (q : ℚ) : (Rat.floor q : ℤ) = ⌊q⌋ :=
  (Rat.floor_def' q).trans Rat.floor_def.symm

theorem roundToPrecision_eq_self (p : ℕ) (k : ℤ) :
    roundToPrecision p ((k : ℚ) / 10 ^ p) = (k : ℚ) / 10 ^ p := by
  unfold roundToPrecision
  have hpow : (10 : ℚ) ^ p ≠ 0 := by positivity
  have h1 : ((k : ℚ) / 10 ^ p) * 10 ^ p = (k : ℚ) := by field_simp
  have h2 : ⌊(k : ℚ) + 1 / 2⌋ = k := by
    rw [Int.floor_int_add]
    have : ⌊(1 / 2 : ℚ)⌋ = 0 := by
      rw [Int.floor_eq_iff]
      norm_num
    rw [this, add_zero]
  rw [h1, ratFloor_eq_floor, h2]

theorem notifs_append (a b : List Ev) : notifs (a ++ b) = notifs a ++ notifs b := by
  simp [notifs]

theorem notifs_cancelPhase (aRes : Except Unit (List AlgoOrder)) :
    notifs (cancelPhaseEvents aRes) = [] := by
  cases aRes with
  | error e => rfl
  | ok os =>
    simp only [cancelPhaseEvents, notifs, List.filterMap_cons]
    rw [List.filterMap_map]
    simp

theorem notifs_retryRun (d : ℕ) (s : String) (q : ℚ) :
    ∀ outs, notifs (retryRun d (.closeAttempt s q) outs).2 = [] := by
  intro outs
  induction outs with
  | nil => rfl
  | cons o rest ih =>
    cases o with
    | ok r => rfl
    | error e =>
      cases rest with
      | nil => rfl
      | cons o2 rest2 =>
        simp only [retryRun, notifs, List.filterMap_cons] at ih ⊢
        exact ih

/-- C1 counterexample: with the pause flag set, a tick of the 4.0 monitor
(debug_orders.ts, `if (paused) return;`) invokes the close protocol for no
position, although the snapshot holds a position with pnl = -200 < 0 and
|pnl| = 200 ≥ threshold 100.  This refutes the claim's unconditional
"invoked if and only if pnl < 0 and |pnl| ≥ threshold". -/
theorem c1_counterexample :
    (tick40 true 100 [⟨"BTCUSDT", 1/10, -200, "LONG"⟩]
        (fun _ => [Ev.cancelAllOrders])).closed = []
    ∧ (tick40 true 100 [⟨"BTCUSDT", 1/10, -200, "LONG"⟩]
        (fun _ => [Ev.cancelAllOrders])).events = []
    ∧ qualifiesLoss 100 ⟨"BTCUSDT", 1/10, -200, "LONG"⟩ = true := by
  refine ⟨rfl, rfl, by decide⟩

/-- C1 (amended): on a tick the close protocol is invoked for a position if
and only if the controller is not paused, the position is in the snapshot,
its pnl is strictly negative and |pnl| reaches the threshold; the 3.0 monitor
has no pause flag, so there the equivalence holds unconditionally.  In
particular a position with pnl ≥ 0, or with |pnl| below the threshold, is
never closed, paused or not. -/
theorem c1_close_trigger :
    (∀ (paused : Bool) (m : ℚ) (f : List Position) (ct : Position → List Ev)
        (p : Position),
        p ∈ (tick40 paused m f ct).closed ↔
          paused = false ∧ p ∈ f ∧ p.pnl < 0 ∧ m ≤ |p.pnl|)
    ∧ (∀ (m : ℚ) (f : List Position) (ct : Position → List Ev) (p : Position),
        p ∈ (tick30 m f ct).closed ↔ p ∈ f ∧ p.pnl < 0 ∧ m ≤ |p.pnl|) := by
  constructor
  · intro paused m f ct p
    cases paused <;>
      simp [tick40, qualifiesLoss, List.mem_filter, and_assoc]
  · intro m f ct p
    simp [tick30, tick40, qualifiesLoss, List.mem_filter, and_assoc]

/-- C1 witness: an unpaused tick with a qualifying loss does close the
position. -/
theorem c1_close_trigger_witness :
    (⟨"BTCUSDT", 1/10, -200, "LONG"⟩ : Position) ∈
      (tick40 false 100 [⟨"BTCUSDT", 1/10, -200, "LONG"⟩] (fun _ => [])).closed :=
  (c1_close_trigger.1 false 100 [⟨"BTCUSDT", 1/10, -200, "LONG"⟩] (fun _ => [])
      ⟨"BTCUSDT", 1/10, -200, "LONG"⟩).mpr
    ⟨rfl, List.mem_cons_self _ _, by decide, by decide⟩

/-- C2 counterexample: the conditional-order fetch throws, yet the successful
conventional fetch holds a matching protective order, and checkSL returns
Protected (true) — not Unknown — because the source only throws when a
network error occurred AND no match was found.  This refutes "never Protected
in that cycle". -/
theorem c2_counterexample :
    (checkSL "LONG" (Except.error ())
        (Except.ok [⟨"NEW", "SELL", "STOP_MARKET", CloseFlag.ofStr "true",
          none, none⟩])).result = some true := by
  decide

/-- C2 (amended): when either order-list fetch throws, the cycle's result is
never Unprotected; it is Unknown whenever the successful fetch (if any) found
no protecting order; but a protecting order found by the successful fetch
still yields Protected. -/
theorem c2_partial_failure :
    ∀ (side : String) (A : List AlgoOrder) (CX : List ConvOrder),
      ((checkSL side (Except.error ()) (Except.ok CX)).result ≠ some false)
      ∧ ((checkSL side (Except.ok A) (Except.error ())).result ≠ some false)
      ∧ ((checkSL side (Except.error ()) (Except.error ())).result = none)
      ∧ (CX.any (convProtects (expectedSide side)) = false →
          (checkSL side (Except.error ()) (Except.ok CX)).result = none)
      ∧ (A.any (algoProtects (expectedSide side)) = false →
          (checkSL side (Except.ok A) (Except.error ())).result = none)
      ∧ (CX.any (convProtects (expectedSide side)) = true →
          (checkSL side (Except.error ()) (Except.ok CX)).result = some true) := by
  intro side A CX
  refine ⟨?_, ?_, rfl, ?_, ?_, ?_⟩
  · by_cases h : CX.any (convProtects (expectedSide side)) = true <;>
      simp [checkSL, checkConventional, h]
  · by_cases h : A.any (algoProtects (expectedSide side)) = true <;>
      simp [checkSL, checkConventional, h]
  · intro h; simp [checkSL, checkConventional, h]
  · intro h; simp [checkSL, checkConventional, h]
  · intro h; simp [checkSL, checkConventional, h]

/-- C2 witness: conditional fetch fails and the conventional list is empty,
so the cycle reports Unknown. -/
theorem c2_partial_failure_witness :
    (checkSL "LONG" (Except.error ()) (Except.ok ([] : List ConvOrder))).result
      = none :=
  (c2_partial_failure "LONG" [] []).2.2.2.1 rfl

/-- C3 counterexample: the 3.0 monitor (index.ts closePosition) submits the
market close exactly once — a failing submission produces a single
closeAttempt event, no inter-attempt sleep and no further attempt, refuting
"retried up to 3 attempts with a fixed inter-attempt delay" for this cited
implementation (the failure is still surfaced by an error log and alert). -/
theorem c3_counterexample :
    closePosition30 false [] ⟨"XAIUSDT", 5, -200, "LONG"⟩ (Except.ok [])
        (Except.error ())
      = [Ev.cancelAllOrders, Ev.closeAttempt "SELL" 5, Ev.logErrEv,
         Ev.notifyEv AlertKind.closeFailed30] := by
  have hq : roundQty ([] : List (String × ℕ)) "XAIUSDT" (5 : ℚ) = 5 := by
    show roundToPrecision 6 5 = 5
    have h6 : ((5000000 : ℤ) : ℚ) / 10 ^ (6 : ℕ) = 5 := by norm_num
    calc roundToPrecision 6 5 = roundToPrecision 6 (((5000000 : ℤ) : ℚ) / 10 ^ (6 : ℕ)) := by
          rw [h6]
      _ = ((5000000 : ℤ) : ℚ) / 10 ^ (6 : ℕ) := roundToPrecision_eq_self 6 5000000
      _ = 5 := h6
  have hs : closeSide ⟨"XAIUSDT", 5, -200, "LONG"⟩ = "SELL" := by
    norm_num [closeSide]
  simp [closePosition30, cancelPhaseEvents, hq, hs]

/-- C3 (amended): in the 4.0 monitor the close submission is retried up to 3
attempts with a fixed 500 ms delay and a warning between attempts; when all
three fail the trace ends in an error log and a failure alert and the
function returns normally (the loop continues and the still-open position is
re-evaluated next tick); a successful attempt stops the retrying.  The 3.0
monitor submits exactly once, likewise surfacing a failure by log + alert
without terminating. -/
theorem c3_close_retry :
    ∀ (si : List (String × ℕ)) (pos : Position)
      (aRes : Except Unit (List AlgoOrder)) (r : OrderResult),
      (closePosition40 false si pos aRes
          [Except.error (), Except.error (), Except.error ()]
        = cancelPhaseEvents aRes ++
          [Ev.closeAttempt (closeSide pos) (roundQty si pos.symbol |pos.amt|),
           Ev.logWarnEv, Ev.sleepMs 500,
           Ev.closeAttempt (closeSide pos) (roundQty si pos.symbol |pos.amt|),
           Ev.logWarnEv, Ev.sleepMs 500,
           Ev.closeAttempt (closeSide pos) (roundQty si pos.symbol |pos.amt|),
           Ev.logErrEv, Ev.notifyEv AlertKind.closeFailed40])
      ∧ (closePosition40 false si pos aRes
          [Except.ok r, Except.error (), Except.error ()]
        = cancelPhaseEvents aRes ++
          [Ev.closeAttempt (closeSide pos) (roundQty si pos.symbol |pos.amt|)]
          ++ closeStatusEvents r)
      ∧ (closePosition30 false si pos aRes (Except.error ())
        = cancelPhaseEvents aRes ++
          [Ev.closeAttempt (closeSide pos) (roundQty si pos.symbol |pos.amt|),
           Ev.logErrEv, Ev.notifyEv AlertKind.closeFailed30]) := by
  intro si pos aRes r
  refine ⟨?_, ?_, ?_⟩ <;> simp [closePosition40, closePosition30, retryRun]

/-- C4 counterexample: the 3.0 monitor sends the very same success
notification for a close order left in status NEW as for one FILLED — the
Telegram message carries the order id but no status, so the three outcome
classes are collapsed into one, refuting the claim for the cited index.ts
code. -/
theorem c4_counterexample :
    notifs (closePosition30 false [] ⟨"BTCUSDT", 1/10, -200, "LONG"⟩
        (Except.ok []) (Except.ok ⟨77, "NEW"⟩))
      = notifs (closePosition30 false [] ⟨"BTCUSDT", 1/10, -200, "LONG"⟩
        (Except.ok []) (Except.ok ⟨77, "FILLED"⟩))
    ∧ notifs (closePosition30 false [] ⟨"BTCUSDT", 1/10, -200, "LONG"⟩
        (Except.ok []) (Except.ok ⟨77, "NEW"⟩))
      = [AlertKind.closed30 77] := by
  refine ⟨by decide, by decide⟩

/-- C4 (amended): the 4.0 monitor classifies the close order's status three
ways — FILLED yields the success notification, PARTIALLY_FILLED or NEW the
"not fully closed" notification, anything else the "unexpected status"
notification — and the three notification kinds are pairwise distinct.  The
3.0 monitor, by the counterexample, collapses them into one success
notification. -/
theorem c4_status_classification :
    ∀ (si : List (String × ℕ)) (pos : Position)
      (aRes : Except Unit (List AlgoOrder)) (r : OrderResult),
      (r.status = "FILLED" →
        notifs (closePosition40 false si pos aRes
            [Except.ok r, Except.error (), Except.error ()])
          = [AlertKind.closedOk40 r.orderId])
      ∧ (r.status = "PARTIALLY_FILLED" ∨ r.status = "NEW" →
        notifs (closePosition40 false si pos aRes
            [Except.ok r, Except.error (), Except.error ()])
          = [AlertKind.notFullyClosed40 r.status r.orderId])
      ∧ (r.status ≠ "FILLED" → r.status ≠ "PARTIALLY_FILLED" → r.status ≠ "NEW" →
        notifs (closePosition40 false si pos aRes
            [Except.ok r, Except.error (), Except.error ()])
          = [AlertKind.unexpectedStatus40 r.status r.orderId])
      ∧ (∀ (i : ℕ) (s : String) (j : ℕ),
          AlertKind.closedOk40 i ≠ AlertKind.notFullyClosed40 s j
          ∧ AlertKind.closedOk40 i ≠ AlertKind.unexpectedStatus40 s j)
      ∧ (∀ (s : String) (j : ℕ) (s2 : String) (j2 : ℕ),
          AlertKind.notFullyClosed40 s j ≠ AlertKind.unexpectedStatus40 s2 j2) := by
  intro si pos aRes r
  have hsplit :
      closePosition40 false si pos aRes
          [Except.ok r, Except.error (), Except.error ()]
        = cancelPhaseEvents aRes ++
          (Ev.closeAttempt (closeSide pos) (roundQty si pos.symbol |pos.amt|)
            :: closeStatusEvents r) := by
    simp [closePosition40, retryRun]
  have hbase :
      notifs (closePosition40 false si pos aRes
          [Except.ok r, Except.error (), Except.error ()])
        = notifs (closeStatusEvents r) := by
    rw [hsplit, notifs_append, notifs_cancelPhase]
    simp [notifs, List.filterMap_cons]
  refine ⟨?_, ?_, ?_, ?_, ?_⟩
  · intro h
    rw [hbase]
    simp [closeStatusEvents, h, notifs]
  · intro h
    rw [hbase]
    rcases h with h | h <;> simp [closeStatusEvents, h, notifs]
  · intro h1 h2 h3
    rw [hbase]
    have b1 : (r.status == "FILLED") = false := beq_eq_false_iff_ne.mpr h1
    have b2 : (r.status == "PARTIALLY_FILLED") = false := beq_eq_false_iff_ne.mpr h2
    have b3 : (r.status == "NEW") = false := beq_eq_false_iff_ne.mpr h3
    simp [closeStatusEvents, b1, b2, b3, notifs]
  · intro i s j
    exact ⟨fun h => AlertKind.noConfusion h, fun h => AlertKind.noConfusion h⟩
  · intro s j s2 j2
    exact fun h => AlertKind.noConfusion h

/-- C4 witness: a close order left in status NEW produces exactly the
distinct "not fully closed" notification in the 4.0 monitor. -/
theorem c4_status_classification_witness :
    notifs (closePosition40 false [] ⟨"BTCUSDT", 1/10, -200, "LONG"⟩
        (Except.ok []) [Except.ok ⟨9, "NEW"⟩, Except.error (), Except.error ()])
      = [AlertKind.notFullyClosed40 "NEW" 9] :=
  (c4_status_classification [] ⟨"BTCUSDT", 1/10, -200, "LONG"⟩
      (Except.ok []) ⟨9, "NEW"⟩).2.1 (Or.inr rfl)

theorem closeFlagTrue_iff (f : CloseFlag) :
    closeFlagTrue f = true ↔ (f = .ofStr "true" ∨ f = .ofBool true) := by
  cases f <;> simp [closeFlagTrue]

/-- C5 (confirmed): the protective side is SELL for a LONG position and BUY
for a SHORT one; an order matches the protection predicate iff its status is
the active status NEW, its side equals the protective side, its kind is STOP
or STOP_MARKET, and it either has the whole-position-close flag set (boolean
form for conditional orders, string or boolean form for conventional ones) or
carries a strictly positive quantity; a matching conditional order yields
Protected without the conventional list being consulted; and Unprotected is
returned exactly when both fetches succeeded and neither list matched. -/
theorem c5_detection :
    (expectedSide "LONG" = "SELL" ∧ expectedSide "SHORT" = "BUY")
    ∧ (∀ (exp : String) (o : AlgoOrder),
        algoProtects exp o = true ↔
          o.algoStatus = "NEW" ∧ o.side = exp ∧
          (o.orderType = "STOP" ∨ o.orderType = "STOP_MARKET") ∧
          (o.closePosition = some true ∨ 0 < o.quantity.getD 0))
    ∧ (∀ (exp : String) (o : ConvOrder),
        convProtects exp o = true ↔
          o.status = "NEW" ∧ o.side = exp ∧
          (o.type = "STOP" ∨ o.type = "STOP_MARKET") ∧
          (o.closePosition = CloseFlag.ofStr "true"
            ∨ o.closePosition = CloseFlag.ofBool true
            ∨ 0 < convEffQty o))
    ∧ (∀ (side : String) (A : List AlgoOrder)
        (convRes : Except Unit (List ConvOrder)),
        A.any (algoProtects (expectedSide side)) = true →
        checkSL side (Except.ok A) convRes = ⟨some true, false⟩)
    ∧ (∀ (side : String) (aRes : Except Unit (List AlgoOrder))
        (cRes : Except Unit (List ConvOrder)),
        (checkSL side aRes cRes).result = some false ↔
          ∃ A CX, aRes = Except.ok A ∧ cRes = Except.ok CX ∧
            A.any (algoProtects (expectedSide side)) = false ∧
            CX.any (convProtects (expectedSide side)) = false) := by
  refine ⟨⟨by decide, by decide⟩, ?_, ?_, ?_, ?_⟩
  · intro exp o
    simp [algoProtects, Bool.and_eq_true, Bool.or_eq_true, decide_eq_true_eq,
      beq_iff_eq, and_assoc]
  · intro exp o
    simp [convProtects, Bool.and_eq_true, Bool.or_eq_true, decide_eq_true_eq,
      beq_iff_eq, and_assoc, closeFlagTrue_iff, or_assoc]
  · intro side A convRes h
    simp [checkSL, h]
  · intro side aRes cRes
    constructor
    · intro h
      cases aRes with
      | error e =>
        exfalso
        cases cRes with
        | error e2 => simp [checkSL, checkConventional] at h
        | ok CX =>
          by_cases hc : CX.any (convProtects (expectedSide side)) = true <;>
            simp [checkSL, checkConventional, hc] at h
      | ok A =>
        by_cases ha : A.any (algoProtects (expectedSide side)) = true
        · exfalso; simp [checkSL, ha] at h
        · cases cRes with
          | error e2 => exfalso; simp [checkSL, checkConventional, ha] at h
          | ok CX =>
            by_cases hc : CX.any (convProtects (expectedSide side)) = true
            · exfalso; simp [checkSL, checkConventional, ha, hc] at h
            · exact ⟨A, CX, rfl, rfl, by simpa using ha, by simpa using hc⟩
    · rintro ⟨A, CX, rfl, rfl, hA, hCX⟩
      simp [checkSL, checkConventional, hA, hCX]

/-- C5 witness: the spec scenario — a NEW SELL STOP_MARKET conditional order
with closePosition = true on a LONG position yields Protected without the
conventional list being consulted (even when that fetch would fail). -/
theorem c5_detection_witness :
    checkSL "LONG"
        (Except.ok [⟨1, "BTCUSDT", "SELL", none, "STOP_MARKET", "NEW", some true⟩])
        (Except.error ())
      = ⟨some true, false⟩ :=
  c5_detection.2.2.2.1 "LONG"
    [⟨1, "BTCUSDT", "SELL", none, "STOP_MARKET", "NEW", some true⟩]
    (Except.error ()) (by decide)

/-- C6 counterexample: a symbol cached as Protected stays Protected after a
re-check that hits a network failure (the catch block of SLChecker.check does
not touch the cache), refuting "moves back to Unknown, never leaving a stale
determination in the cache". -/
theorem c6_counterexample :
    slCheckCycle 5 [("XAIUSDT", ⟨true, 0⟩)] [⟨"XAIUSDT", 2, -1, "LONG"⟩]
        (fun _ => none)
      = [("XAIUSDT", ⟨true, 0⟩)] := by
  decide

/-- C6 (amended): the per-symbol state starts Unknown (no entry); a
successful full check sets the entry to the Protected/Unprotected
determination with its timestamp; a re-check that hits a network failure
leaves the symbol's entry exactly as it was — the state is Unknown after a
failure only if no successful check had happened before; and the entry is
removed when the symbol no longer appears in the live position snapshot. -/
theorem c6_cache_transitions :
    ∀ (now : ℤ) (cache : List (String × SLState)) (ps : List Position)
      (res : Position → Option Bool) (s : String),
      ((∀ p ∈ ps, p.symbol ≠ s) →
        mapGet (slCheckCycle now cache ps res) s = none)
      ∧ ((ps.map Position.symbol).Nodup →
          ∀ p ∈ ps, ∀ b, res p = some b →
            mapGet (slCheckCycle now cache ps res) p.symbol = some ⟨b, now⟩)
      ∧ ((ps.map Position.symbol).Nodup →
          ∀ p ∈ ps, res p = none →
            mapGet (slCheckCycle now cache ps res) p.symbol
              = mapGet cache p.symbol) := by
  intro now cache ps res s
  refine ⟨?_, ?_, ?_⟩
  · intro h
    unfold slCheckCycle
    rw [foldl_checkStep_preserve now res ps _ s h]
    apply mapGet_filter_false
    intro v
    rw [List.any_eq_false]
    intro p hp
    exact fun hc => h p hp (by simpa using hc)
  · intro hnd p hp b hb
    unfold slCheckCycle
    rw [foldl_checkStep_get now res ps _ p hp hnd, hb]
  · intro hnd p hp hb
    unfold slCheckCycle
    rw [foldl_checkStep_get now res ps _ p hp hnd, hb]
    apply mapGet_filter_true
    intro v
    exact List.any_eq_true.mpr ⟨p, hp, by simp⟩

/-- C6 witness: a successful first check records the determination. -/
theorem c6_cache_transitions_witness :
    mapGet (slCheckCycle 7 [] [⟨"BTCUSDT", 1, 2, "LONG"⟩] (fun _ => some true))
        "BTCUSDT" = some ⟨true, 7⟩ :=
  (c6_cache_transitions 7 [] [⟨"BTCUSDT", 1, 2, "LONG"⟩] (fun _ => some true)
      "BTCUSDT").2.1 (by simp) ⟨"BTCUSDT", 1, 2, "LONG"⟩ (List.mem_cons_self _ _)
    true rfl

/-- C7 (confirmed): on a paused tick no position enters the close protocol
and no cancellation/close/notification event is emitted, while the position
fetch still replaces the snapshot and printPositions is still invoked; the
status report built from that snapshot still lists every position with its
pnl (getStatusInfo does not read the pause flag), and the SL-detection cycle
(slCheckCycle) takes no pause input at all. -/
theorem c7_pause_semantics :
    ∀ (m : ℚ) (f : List Position) (ct : Position → List Ev)
      (sl : String → Option SLState) (errs : ℕ),
      (tick40 true m f ct).closed = []
      ∧ (tick40 true m f ct).events = []
      ∧ (tick40 true m f ct).snapshot = f
      ∧ (tick40 true m f ct).printInvoked = true
      ∧ ((getStatusInfo (tick40 true m f ct).snapshot sl errs).1.map
            (fun e => (e.symbol, e.pnl))
          = f.map (fun p => (p.symbol, p.pnl)))
      ∧ (getStatusInfo (tick40 true m f ct).snapshot sl errs).2 = errs := by
  intro m f ct sl errs
  refine ⟨rfl, rfl, rfl, rfl, ?_, rfl⟩
  simp [getStatusInfo, tick40]

/-- C8 counterexample: after clearSymbol the stored last-sent time reads as 0
(the `|| 0` default), so the next shouldNotify call returns true only when
now - 0 ≥ interval; with a configured interval (10) exceeding the elapsed
epoch time (5) the call returns false, refuting "returns true regardless of
the interval" — reachable by configuring a notification interval larger than
the current epoch timestamp. -/
theorem c8_counterexample :
    (shouldNotify 10 5 (clearSymbol [("XAIUSDT", 4)] "XAIUSDT") "XAIUSDT").1
      = false := by
  decide

/-- C8 (amended): with `last` the recorded last-sent time (0 when no entry
exists), shouldNotify returns true and records now iff now - last ≥ interval,
and otherwise returns false leaving the map unchanged; it returns true at
most once per interval for the same symbol; and immediately after
clearSymbol the next call returns true whenever interval ≤ now, i.e. unless
the configured interval exceeds the current epoch time. -/
theorem c8_throttle :
    ∀ (i now : ℤ) (m : List (String × ℤ)) (s : String),
      (i ≤ now - ((mapGet m s).getD 0) →
        shouldNotify i now m s = (true, mapSet m s now))
      ∧ (now - ((mapGet m s).getD 0) < i →
        shouldNotify i now m s = (false, m))
      ∧ (∀ t2 : ℤ, t2 - now < i → (shouldNotify i now m s).1 = true →
          (shouldNotify i t2 (shouldNotify i now m s).2 s).1 = false)
      ∧ (i ≤ now → (shouldNotify i now (clearSymbol m s) s).1 = true) := by
  intro i now m s
  refine ⟨?_, ?_, ?_, ?_⟩
  · intro h
    simp [shouldNotify, h]
  · intro h
    simp [shouldNotify, not_le.mpr h]
  · intro t2 h1 h2
    by_cases hc : i ≤ now - ((mapGet m s).getD 0)
    · have hg : mapGet (mapSet m s now) s = some now := mapGet_set_self m s now
      simp [shouldNotify, hc, hg, not_le.mpr h1]
    · exfalso
      simp [shouldNotify, hc] at h2
  · intro h
    have hg : mapGet (clearSymbol m s) s = none := mapGet_delete_self m s
    simp [shouldNotify, hg, h]

/-- C8 witness: once the elapsed epoch time reaches the interval, the call
right after clearSymbol notifies. -/
theorem c8_throttle_witness :
    (shouldNotify 10 1000 (clearSymbol [("BTCUSDT", 4)] "BTCUSDT") "BTCUSDT").1
      = true :=
  (c8_throttle 10 1000 [("BTCUSDT", 4)] "BTCUSDT").2.2.2 (by norm_num)

/-- C9 (confirmed): rounding is idempotent — a quantity already representable
with the symbol's effective number of fractional digits is returned
identically, and applying roundQty twice equals applying it once; a symbol
absent from the precision cache uses the 6-digit default.  (Quantities are
modelled as exact rationals; toFixed's decimal rounding is floor(q·10^p+1/2)
over ℚ.) -/
theorem c9_round_idempotent :
    (∀ (si : List (String × ℕ)) (s : String) (q : ℚ),
        (∃ k : ℤ, q = (k : ℚ) / 10 ^ effectivePrecision si s) →
        roundQty si s q = q)
    ∧ (∀ (si : List (String × ℕ)) (s : String) (q : ℚ),
        roundQty si s (roundQty si s q) = roundQty si s q)
    ∧ (∀ (si : List (String × ℕ)) (s : String),
        mapGet si s = none → effectivePrecision si s = 6) := by
  refine ⟨?_, ?_, ?_⟩
  · rintro si s q ⟨k, rfl⟩
    exact roundToPrecision_eq_self _ k
  · intro si s q
    exact roundToPrecision_eq_self (effectivePrecision si s)
      ((q * 10 ^ effectivePrecision si s + 1 / 2).floor)
  · intro si s h
    simp [effectivePrecision, h]

/-- C9 witness: 0.1 is already rounded at the 6-digit default precision of an
uncached symbol and is returned identically. -/
theorem c9_round_idempotent_witness :
    roundQty [] "BTCUSDT" (1 / 10) = 1 / 10 :=
  c9_round_idempotent.1 [] "BTCUSDT" (1 / 10)
    ⟨100000, by show (1 / 10 : ℚ) = ((100000 : ℤ) : ℚ) / 10 ^ (6 : ℕ); norm_num⟩

/-- C10 (confirmed): a step size of "1" yields cached precision 0; because
`get(symbol) || 6` coalesces the falsy 0 to the unknown-symbol default,
roundQty then rounds at 6 fractional digits instead of 0 — e.g. 1.5 is
returned unchanged where 0-digit rounding would give 2. -/
theorem c10_zero_precision_coalesced :
    precisionOfStepSize "1" = 0
    ∧ (∀ (si : List (String × ℕ)) (s : String) (q : ℚ),
        roundQty (mapSet si s (precisionOfStepSize "1")) s q
          = roundToPrecision 6 q)
    ∧ roundQty (mapSet [] "IOTAUSDT" (precisionOfStepSize "1")) "IOTAUSDT" (3 / 2)
        = 3 / 2
    ∧ roundToPrecision 0 (3 / 2) = 2 := by
  have h0 : precisionOfStepSize "1" = 0 := by decide
  have h2 : ∀ (si : List (String × ℕ)) (s : String) (q : ℚ),
      roundQty (mapSet si s (precisionOfStepSize "1")) s q
        = roundToPrecision 6 q := by
    intro si s q
    unfold roundQty
    rw [h0]
    have : effectivePrecision (mapSet si s 0) s = 6 := by
      simp [effectivePrecision, mapGet_set_self]
    rw [this]
  refine ⟨h0, h2, ?_, ?_⟩
  · rw [h2]
    have he : ((1500000 : ℤ) : ℚ) / 10 ^ (6 : ℕ) = 3 / 2 := by norm_num
    calc roundToPrecision 6 (3 / 2)
        = roundToPrecision 6 (((1500000 : ℤ) : ℚ) / 10 ^ (6 : ℕ)) := by rw [he]
      _ = ((1500000 : ℤ) : ℚ) / 10 ^ (6 : ℕ) := roundToPrecision_eq_self 6 1500000
      _ = 3 / 2 := he
  · unfold roundToPrecision
    rw [ratFloor_eq_floor]
    have hv : ((3 : ℚ) / 2 * 10 ^ (0 : ℕ) + 1 / 2) = ((2 : ℤ) : ℚ) := by norm_num
    rw [hv, Int.floor_intCast]
    norm_num

end Guardian
